import Mathlib

/-!
Verification of the Pardalotus Metabeak event pipeline.

This file gives a shallow embedding of the parts of the source relevant to the
specified properties: the JSON event model and its hydration/ingest functions
(`src/execution/model.rs`), the sandbox run loop (`src/execution/run.rs`), the
Crossref harvester checkpoint logic
(`src/metadata_assertion/crossref/metadata_agent.rs`), the metadata assertion
service (`src/metadata_assertion/service.rs`, `src/db/metadata.rs`), handler
upload (`src/db/handler.rs`, `src/service.rs`), and Crossref event extraction
(`src/event_extraction/crossref.rs`).

JSON values (`serde_json::Value`) are embedded as an inductive `Json`; the
default serde_json map is a BTreeMap, so object insertion keeps keys sorted.
Numbers are embedded as `Int` (the code only uses `as_i64`). A Rust `String`
field that always holds serialized JSON is embedded as the parsed `Json` value;
the un-parseable-string case of `serde_json::from_str` is modelled by feeding
`Option Json` with `none` where the source parses a string.

The external `scholarly_identifiers` crate is not part of this repository;
its `Identifier` type is embedded as an abstract term algebra (constructors
for the two entry points the source calls), and the crate functions used by
hydration are passed in as an `IdentifierOps` record, so theorems hold for
every behaviour of the crate.
-/

namespace Metabeak

/-- Embedding of `serde_json::Value`. Objects are association lists;
the source's maps are BTreeMaps so keys are kept sorted by `objInsert`. -/
inductive Json where
  | null : Json
  | bool (b : Bool) : Json
  | num (n : Int) : Json
  | str (s : String) : Json
  | arr (items : List Json) : Json
  | obj (fields : List (String × Json)) : Json
deriving Repr, BEq

/-- Look up a key in a JSON object field list: `serde_json::Map::get`. -/
def objGet : List (String × Json) → String → Option Json
  | [], _ => none
  | (k, v) :: rest, key => if k = key then some v else objGet rest key

/-- Lexicographic order on character lists by scalar value; on the ASCII keys
used here this is the `String::cmp` byte order of the Rust BTreeMap. -/
def charListLt : List Char → List Char → Bool
  | _, [] => false
  | [], _ :: _ => true
  | c :: cs, d :: ds =>
    if c.toNat < d.toNat then true
    else if d.toNat < c.toNat then false
    else charListLt cs ds

def stringLt (a b : String) : Bool := charListLt a.data b.data

/-- Insert a key into a sorted JSON object field list, replacing any existing
entry: `serde_json::Map::insert` on the default BTreeMap representation. -/
def objInsert : List (String × Json) → String → Json → List (String × Json)
  | [], key, v => [(key, v)]
  | (k, w) :: rest, key, v =>
    if stringLt key k then (key, v) :: (k, w) :: rest
    else if key = k then (key, v) :: rest
    else (k, w) :: objInsert rest key v

/-- `serde_json::Value::is_object`. -/
def Json.isObj : Json → Bool
  | .obj _ => true
  | _ => false

/-- `serde_json::Value::as_str`. -/
def Json.asStr? : Json → Option String
  | .str s => some s
  | _ => none

/-- `serde_json::Value::as_i64`. -/
def Json.asI64? : Json → Option Int
  | .num n => some n
  | _ => none

/-- `serde_json::Value::as_array`. -/
def Json.asArr? : Json → Option (List Json)
  | .arr items => some items
  | _ => none

/-- `value.get(key)` on a JSON value (None when not an object). -/
def Json.get? : Json → String → Option Json
  | .obj fields, key => objGet fields key
  | _, _ => none

/-- The external `scholarly_identifiers::identifiers::Identifier`, kept
abstract: the source only constructs identifiers through these two crate
entry points and otherwise treats them as opaque values. -/
inductive Identifier where
  | parse (s : String) : Identifier
  | fromIdStringPair (value : String) (idType : Int) : Identifier
deriving Repr, BEq, DecidableEq

/-- The crate operations hydration uses on an `Identifier`
(`to_stable_string`, the `identifier_type_string` vocabulary tag source,
and `to_uri`). Parameterising over them makes theorems hold for every
behaviour of the external crate. -/
structure IdentifierOps where
  toStableString : Identifier → String
  typeTag : Identifier → String
  toUri : Identifier → Option String

/-- A trivial instantiation of the crate operations, for concrete evaluation. -/
def defaultOps : IdentifierOps where
  toStableString := fun _ => ""
  typeTag := fun _ => ""
  toUri := fun _ => none

/-! ### `src/db/source.rs` -/

/-- `MetadataSourceId` from `src/db/source.rs`. -/
inductive MetadataSourceId where
  | Unknown
  | Test
  | Crossref
  | ContentNegotiation
deriving Repr, BEq, DecidableEq

namespace MetadataSourceId

/-- The discriminant values assigned in the Rust enum. -/
def toInt : MetadataSourceId → Int
  | Unknown => 0
  | Test => 1
  | Crossref => 2
  | ContentNegotiation => 3

def from_str_value (value : String) : MetadataSourceId :=
  if value = "crossref" then Crossref
  else if value = "test" then Test
  else if value = "content-negotiation" then ContentNegotiation
  else Unknown

def from_int_value (value : Int) : MetadataSourceId :=
  if value = 2 then Crossref
  else if value = 1 then Test
  else if value = 3 then ContentNegotiation
  else Unknown

def to_str_value : MetadataSourceId → String
  | Crossref => "crossref"
  | ContentNegotiation => "content-negotiation"
  | Test => "test"
  | Unknown => "UNKNOWN"

end MetadataSourceId

/-- `EventAnalyzerId` from `src/db/source.rs`. -/
inductive EventAnalyzerId where
  | Unknown
  | Test
  | Lifecycle
  | Reference
  | Contribution
  | Identifier
  | Organizations
deriving Repr, BEq, DecidableEq

namespace EventAnalyzerId

/-- The discriminant values assigned in the Rust enum. -/
def toInt : EventAnalyzerId → Int
  | Unknown => 0
  | Test => 1
  | Lifecycle => 2
  | Reference => 3
  | Contribution => 4
  | Identifier => 5
  | Organizations => 6

def from_str_value (value : String) : EventAnalyzerId :=
  if value = "lifecycle" then Lifecycle
  else if value = "test" then Test
  else if value = "reference" then Reference
  else if value = "contribution" then Contribution
  else if value = "identifier" then Identifier
  else if value = "organizations" then Organizations
  else Unknown

def from_int_value (value : Int) : EventAnalyzerId :=
  if value = 2 then Lifecycle
  else if value = 1 then Test
  else if value = 3 then Reference
  else if value = 4 then Contribution
  else if value = 5 then Identifier
  else if value = 6 then Organizations
  else Unknown

def to_str_value : EventAnalyzerId → String
  | Lifecycle => "lifecycle"
  | Test => "test"
  | Reference => "reference"
  | Contribution => "contribution"
  | Identifier => "identifier"
  | Organizations => "organizations"
  | Unknown => "UNKNOWN"

end EventAnalyzerId

/-! ### `src/execution/model.rs` -/

/-- `HandlerSpec` from `src/execution/model.rs`. -/
structure HandlerSpec where
  handler_id : Int
  code : String
deriving Repr, BEq, DecidableEq

/-- `Event` from `src/execution/model.rs`. The Rust `json : String` field
always holds serialized JSON (written by `from_json_value` or the extractor);
it is embedded as the parsed `Json` value. -/
structure Event where
  event_id : Int
  analyzer : EventAnalyzerId
  source : MetadataSourceId
  subject_id : Option Identifier
  object_id : Option Identifier
  assertion_id : Int
  json : Json
deriving Repr, BEq

/-- `is_hydrated_field` from `src/execution/model.rs`. -/
def is_hydrated_field (field : String) : Bool :=
  field = "analyzer" || field = "source" || field = "subject_id"
    || field = "subject_id_type" || field = "object_id" || field = "object_id_type"

/-- `Event::to_json_value` from `src/execution/model.rs`: serialize to the
public JSON representation, hydrating the analyzer, source and identifier
fields. Returns the hydrated object, or `none` when the stored JSON is
not an object (the source also returns `None` when the stored string fails
to parse, a case outside this embedding of `json` as parsed JSON). -/
def Event.to_json_value (ops : IdentifierOps) (e : Event) : Option Json :=
  match e.json with
  | Json.obj fields =>
    let f := objInsert fields "analyzer" (Json.str e.analyzer.to_str_value)
    let f := objInsert f "source" (Json.str e.source.to_str_value)
    let f := match e.subject_id with
      | some identifier =>
        let g := objInsert f "subject_id" (Json.str (ops.toStableString identifier))
        let g := objInsert g "subject_id_type" (Json.str (ops.typeTag identifier))
        match ops.toUri identifier with
        | some uri => objInsert g "subject_id_uri" (Json.str uri)
        | none => g
      | none => f
    let f := match e.object_id with
      | some identifier =>
        let g := objInsert f "object_id" (Json.str (ops.toStableString identifier))
        let g := objInsert g "object_id_type" (Json.str (ops.typeTag identifier))
        match ops.toUri identifier with
        | some uri => objInsert g "object_id_uri" (Json.str uri)
        | none => g
      | none => f
    some (Json.obj f)
  | _ => none

/-- `Event::from_json_value` from `src/execution/model.rs`: load an event
from the public JSON representation. The argument models the result of
`serde_json::from_str` on the input string (`none` = parse failure).
Note the normalization loop in the source inserts a field into the stored
JSON exactly when `is_hydrated_field` holds of it. -/
def Event.from_json_value (input : Option Json) : Option Event :=
  match input with
  | some (Json.obj data) =>
    match objGet data "analyzer", objGet data "source" with
    | some analyzerVal, some sourceVal =>
      let analyzer_str := analyzerVal.asStr?.getD "UNKNOWN"
      let source_str := sourceVal.asStr?.getD "UNKNOWN"
      let analyzer := EventAnalyzerId.from_str_value analyzer_str
      let source := MetadataSourceId.from_str_value source_str
      let assertion_id : Int := -1
      let event_id : Int := match objGet data "event_id" with
        | some value => value.asI64?.getD (-1)
        | none => -1
      let subject_id := match objGet data "subject_id" with
        | some val => val.asStr?.map Identifier.parse
        | none => none
      let object_id := match objGet data "object_id" with
        | some val => val.asStr?.map Identifier.parse
        | none => none
      let normalized_event := data.filter (fun field => is_hydrated_field field.1)
      some { event_id, analyzer, source, subject_id, object_id, assertion_id,
             json := Json.obj normalized_event }
    | _, _ => none
  | _ => none

/-- `RunResult` from `src/execution/model.rs`. The Rust `output` field is an
`Option<String>` holding one serialized JSON object; it is embedded as the
parsed `Json` value. -/
structure RunResult where
  handler_id : Int
  event_id : Int
  output : Option Json
  error : Option String
deriving Repr, BEq

/-! ### `src/execution/run.rs`

The V8 engine, the isolates and the watchdog thread are external to the
repository's logic; what the source determines is which `RunResult`s are
appended, with which ids and messages, for each possible outcome of the
engine calls. Each handler's engine behaviour is abstracted as a
`HandlerBehavior` oracle; `run_all` is then a deterministic function of the
handlers, the events and the oracle.

Watchdog protocol, as in the source: a load or call that exceeds its timeout
is terminated (`script.run` / `Function::call` returns `None` with no
catchable exception) and one message is placed on the terminated channel
before the call returns; `report_terminated` drains the channel at the end of
each handler's iteration, appending one timeout error per message. -/

/-- An apostrophe, for building the source's message strings. -/
def apostrophe : String := String.singleton (Char.ofNat 39)

def msgNoReturn : String :=
  "Function didn" ++ apostrophe
    ++ "t return a JSON-serializable value. Check for a `return` statement."

def msgNotArray : String :=
  "Failed to parse result from function. Check that you returned an array of results that can be represented in JSON."

def msgFNotFunction : String :=
  apostrophe ++ "f" ++ apostrophe ++ " was not a function. Check you have don"
    ++ apostrophe ++ "t have a conflicting variable named `f`."

def msgFMissing : String := "Didn" ++ apostrophe ++ "t find named function."

def msgLoadCodeFail : String := "Failed to load code."

def msgCompileFail : String := "Failed to compile code."

def msgLoadExn (m : String) : String := "Failed to load the function. Exception: " ++ m

def msgLoadNoExn : String := "Failed to load the function, no exception available."

def msgRunExn (m : String) : String := "Failed to run the function. Exception: " ++ m

def msgRunNoExn : String := "Failed to run the function, no exception available."

def msgTooLong : String := "Handler function took too long to run and was terminated."

/-- A result with only `error` set: the body of `report_error`. -/
def errResult (handler_id event_id : Int) (message : String) : RunResult :=
  { handler_id, event_id, output := none, error := some message }

/-- A result with only `output` set: the success row pushed by
`report_result_output` for one array element. -/
def okResult (handler_id event_id : Int) (v : Json) : RunResult :=
  { handler_id, event_id, output := some v, error := none }

/-- `report_error` from `src/execution/run.rs`. -/
def report_error (handler_id event_id : Int) (results : List RunResult)
    (message : String) : List RunResult :=
  results ++ [errResult handler_id event_id message]

/-- Outcome of `v8::json::stringify` on the value returned by `f`
(`run.rs:45`). The engine call returns `None` when JSON stringification
throws (a circular structure, a BigInt); it returns the literal string
`"undefined"` for `undefined` and for values with no JSON representation
such as a bare function; otherwise it returns the JSON text of the value,
modelled by the parsed `Json`. -/
inductive StringifyOutcome where
  /-- Stringification threw: `v8::json::stringify` returned `None`. -/
  | throws
  /-- The stringified text is the literal `"undefined"`. -/
  | undef
  /-- The stringified text is the JSON serialization of `v`. -/
  | json (v : Json)
deriving Repr, BEq

/-- The body of `report_result_output` from the point where the stringified
text `result_json` has been obtained (`run.rs:49` onward): `none` stands for
the text `"undefined"`, `some v` for the JSON text of `v`. Reparsing the
text as `Vec<serde_json::Value>` succeeds exactly for arrays; the
per-element `serde_json::to_string` error branch in the source is
unreachable. -/
def report_result_output_json (handler_spec : HandlerSpec) (event_id : Int)
    (results : List RunResult) (result_json : Option Json) : List RunResult :=
  match result_json with
  | none => report_error handler_spec.handler_id event_id results msgNoReturn
  | some (Json.arr result_array) =>
    results ++ result_array.map (fun r => okResult handler_spec.handler_id event_id r)
  | some _ => report_error handler_spec.handler_id event_id results msgNotArray

/-- `report_result_output` from `src/execution/run.rs`, including its first
step `v8::json::stringify(scope, result).unwrap()`: when stringification
throws the engine call returns `None` and the `.unwrap()` panics, so the
function never returns and no result is appended — modelled by `none`.
Otherwise the function returns the updated results list. -/
def report_result_output (handler_spec : HandlerSpec) (event_id : Int)
    (results : List RunResult) (result : StringifyOutcome) :
    Option (List RunResult) :=
  match result with
  | .throws => none
  | .undef => some (report_result_output_json handler_spec event_id results none)
  | .json v => some (report_result_output_json handler_spec event_id results (some v))

/-- Outcome of the load phase (`load_script`'s engine calls) for one handler. -/
inductive LoadOutcome where
  | ok
  /-- `v8::String::new` failed. -/
  | strAllocFail
  /-- `Script::compile` returned `None`. -/
  | compileFail
  /-- `script.run` returned `None` with a catchable exception. -/
  | runFailExn (msg : String)
  /-- `script.run` returned `None` with no exception. -/
  | runFailNoExn
  /-- The watchdog terminated the load: `script.run` returns `None` with no
  catchable exception, and one message is on the terminated channel. -/
  | timeoutTerminated
deriving Repr, BEq, DecidableEq

/-- Outcome of looking up the global `f` after a successful load. -/
inductive FOutcome where
  | isFunction
  | missing
  | notFunction
deriving Repr, BEq, DecidableEq

/-- Outcome of one `f(input)` invocation. A return whose JSON
stringification throws is not an outcome here: on such a return the source
panics at the `.unwrap()` inside `report_result_output` (see
`StringifyOutcome.throws`), so `run_all` aborts without returning a result
list and no execution produces results at all; the oracle ranges over the
invocations for which `run_all` returns. -/
inductive CallOutcome where
  /-- The call returned and stringification did not throw; `none` models a
  value whose JSON stringification is the literal `"undefined"`. -/
  | ret (v : Option Json)
  /-- The call returned `None` with a catchable exception. -/
  | failExn (msg : String)
  /-- The call returned `None` with no exception. -/
  | failNoExn
  /-- The watchdog terminated the call: it returns `None` with no catchable
  exception, and one message is on the terminated channel. -/
  | timeoutTerminated
deriving Repr, BEq

/-- The engine's behaviour for one handler: its load outcome, whether `f` is
bound to a function afterwards, and the outcome of the call for each event
position. -/
structure HandlerBehavior where
  load : LoadOutcome
  fStatus : FOutcome
  call : Nat → CallOutcome

/-- `load_script` from `src/execution/run.rs`: report load errors, return
success, and (model of the watchdog) the number of terminated-channel
messages produced by the load. -/
def load_script (handler_spec : HandlerSpec) (results : List RunResult)
    (b : HandlerBehavior) : List RunResult × Bool × Nat :=
  match b.load with
  | .ok => (results, true, 0)
  | .strAllocFail =>
    (report_error handler_spec.handler_id (-1) results msgLoadCodeFail, false, 0)
  | .compileFail =>
    (report_error handler_spec.handler_id (-1) results msgCompileFail, false, 0)
  | .runFailExn m =>
    (report_error handler_spec.handler_id (-1) results (msgLoadExn m), false, 0)
  | .runFailNoExn =>
    (report_error handler_spec.handler_id (-1) results msgLoadNoExn, false, 0)
  | .timeoutTerminated =>
    (report_error handler_spec.handler_id (-1) results msgLoadNoExn, false, 1)

/-- `get_f_function` from `src/execution/run.rs`: report an error when `f`
is missing or not a function. -/
def get_f_function (handler_spec : HandlerSpec) (results : List RunResult)
    (b : HandlerBehavior) : List RunResult × Bool :=
  match b.fStatus with
  | .isFunction => (results, true)
  | .notFunction =>
    (report_error handler_spec.handler_id (-1) results msgFNotFunction, false)
  | .missing =>
    (report_error handler_spec.handler_id (-1) results msgFMissing, false)

/-- One iteration of the per-event loop in `run_all`: invoke `f` on the
hydrated event, report the outcome; the `Nat` is the number of
terminated-channel messages produced. -/
def run_event (handler_spec : HandlerSpec) (ev : Event) (outcome : CallOutcome)
    (results : List RunResult) : List RunResult × Nat :=
  match outcome with
  | .ret v => (report_result_output_json handler_spec ev.event_id results v, 0)
  | .failExn m =>
    (report_error handler_spec.handler_id ev.event_id results (msgRunExn m), 0)
  | .failNoExn =>
    (report_error handler_spec.handler_id ev.event_id results msgRunNoExn, 0)
  | .timeoutTerminated =>
    (report_error handler_spec.handler_id ev.event_id results msgRunNoExn, 1)

/-- The per-event loop of `run_all` over the hydrated events, accumulating
results and terminated-channel messages. -/
def run_events (handler_spec : HandlerSpec) (b : HandlerBehavior) :
    List Event → Nat → List RunResult × Nat → List RunResult × Nat
  | [], _, acc => acc
  | ev :: rest, i, (results, terms) =>
    let step := run_event handler_spec ev (b.call i) results
    run_events handler_spec b rest (i + 1) (step.1, terms + step.2)

/-- `report_terminated` from `src/execution/run.rs`: drain the terminated
channel, appending one timeout error per message; within one handler's
iteration every message carries that handler's id. -/
def report_terminated (handler_id : Int) (count : Nat)
    (results : List RunResult) : List RunResult :=
  results ++ List.replicate count (errResult handler_id (-1) msgTooLong)

/-- The per-handler body of `run_all`: load the script, fetch `f`, run all
hydrated events, then poll the terminated channel. -/
def run_handler (b : HandlerBehavior) (handler_spec : HandlerSpec)
    (hydrated : List Event) (results : List RunResult) : List RunResult :=
  let loaded := load_script handler_spec results b
  let after :=
    if loaded.2.1 then
      let got := get_f_function handler_spec loaded.1 b
      if got.2 then run_events handler_spec b hydrated 0 (got.1, loaded.2.2)
      else (got.1, loaded.2.2)
    else (loaded.1, loaded.2.2)
  report_terminated handler_spec.handler_id after.2 after.1

/-- `run_all` from `src/execution/run.rs`: hydrate the events (dropping any
whose stored JSON does not hydrate), then run every handler against every
hydrated event in a fresh isolate, with watchdog termination reporting. -/
def run_all (behave : HandlerSpec → HandlerBehavior) (ops : IdentifierOps)
    (handlers : List HandlerSpec) (events : List Event) : List RunResult :=
  let hydrated_events := events.filter (fun e => (e.to_json_value ops).isSome)
  handlers.foldl
    (fun results handler_spec =>
      run_handler (behave handler_spec) handler_spec hydrated_events results)
    []

/-! ### `src/metadata_assertion/crossref/metadata_agent.rs` — checkpoint logic

Timestamps (`time::OffsetDateTime`) are embedded as `Int` seconds;
`Duration::HOUR` is 3600. `saturating_sub` never saturates for realistic
dates, so it is plain subtraction here. -/

/-- The consumer loop of `harvest_recently_indexed`: starting from `after`,
fold `latest_date = indexed.max(latest_date)` over the index dates of the
items received from the channel (items without a parseable index date are
skipped by the `if let`). Returns the final `latest_date`, which is the
function's return value. -/
def harvest_recently_indexed (after : Int) (itemDates : List Int) : Int :=
  itemDates.foldl (fun latest_date indexed => max indexed latest_date) after

/-- `poll_newly_indexed_data` from
`src/metadata_assertion/crossref/metadata_agent.rs`, as the new value it
writes to the `crossref-not-before` checkpoint: read the checkpoint
(defaulting to now), subtract the one-hour jitter margin to get `after`,
harvest, and store the returned date. `itemDates` are the index dates of the
items the producer forwarded (each greater than `after`, though nothing here
depends on that). -/
def poll_newly_indexed_data (checkpoint : Option Int) (now : Int)
    (itemDates : List Int) : Int :=
  let after := checkpoint.getD now - 3600
  harvest_recently_indexed after itemDates

/-! ### `src/db/metadata.rs` and `src/metadata_assertion/service.rs` -/

/-- `MetadataAssertionReason` from `src/db/metadata.rs`. The enum in the
source has this single variant (discriminant 1); the callers in
`metadata_agent.rs` and `retrieve/doi.rs` nonetheless name a
`MetadataAssertionReason::Secondary` variant that does not exist. -/
inductive MetadataAssertionReason where
  | Primary
deriving Repr, BEq, DecidableEq

/-- The stored discriminant (`reason as i16`). -/
def MetadataAssertionReason.toInt : MetadataAssertionReason → Int
  | .Primary => 1

/-- A row of the `metadata_assertion` table, with the columns bound by
`insert_metadata_assertion`. -/
structure MetadataAssertionRow where
  json : String
  source_id : Int
  subject_entity_id : Int
  hash : String
  reason : Int
deriving Repr, BEq, DecidableEq

/-- `insert_metadata_assertion` from `src/db/metadata.rs`:
`INSERT ... ON CONFLICT (subject_entity_id, hash, source_id) DO NOTHING`. -/
def insert_metadata_assertion (json : String) (source : MetadataSourceId)
    (subject_entity_id : Int) (hash : String) (reason : MetadataAssertionReason)
    (table : List MetadataAssertionRow) : List MetadataAssertionRow :=
  if table.any (fun row =>
      row.subject_entity_id == subject_entity_id && row.hash == hash
        && row.source_id == source.toInt) then
    table
  else
    table ++ [{ json, source_id := source.toInt, subject_entity_id, hash,
                reason := reason.toInt }]

/-- `assert_metadata` from `src/metadata_assertion/service.rs`. Note the
source function accepts no reason argument and always passes
`MetadataAssertionReason::Primary` to `insert_metadata_assertion`;
`subject_entity_id` stands for the id resolved by
`db::entity::resolve_identifier`, and `hash` for `hash_data(metadata_json)`
(the external SHA-1). -/
def assert_metadata (subject_entity_id : Int) (metadata_json : String)
    (source : MetadataSourceId) (hash : String)
    (table : List MetadataAssertionRow) : List MetadataAssertionRow :=
  insert_metadata_assertion metadata_json source subject_entity_id hash
    MetadataAssertionReason.Primary table

/-- The per-item body of the consumer loop in `harvest_secondary_with_filter`
(`src/metadata_assertion/crossref/metadata_agent.rs`): each record matched by
the bulk filter scan is persisted through `assert_metadata` with source
Crossref. The call site requests `MetadataAssertionReason::Secondary`, but
`assert_metadata` takes no reason parameter. -/
def harvest_secondary_item (subject_entity_id : Int) (json : String)
    (hash : String) (table : List MetadataAssertionRow) : List MetadataAssertionRow :=
  assert_metadata subject_entity_id json MetadataSourceId.Crossref hash table

/-! ### `src/db/handler.rs` and `src/service.rs` — handler upload -/

/-- A row of the `handler` table, with the columns bound by `insert_handler`. -/
structure HandlerRow where
  handler_id : Int
  owner_id : Int
  hash : String
  code : String
  status : Int
deriving Repr, BEq, DecidableEq

/-- The `handler` table plus its id sequence. -/
structure HandlerTable where
  rows : List HandlerRow
  next_id : Int
deriving Repr, BEq, DecidableEq

/-- `HandlerState` from `src/db/handler.rs`. -/
inductive HandlerState where
  | Enabled
  | Disabled
  | Unknown
deriving Repr, BEq, DecidableEq

def HandlerState.toInt : HandlerState → Int
  | .Enabled => 1
  | .Disabled => 2
  | .Unknown => 3

/-- `insert_handler` from `src/db/handler.rs`:
`INSERT ... ON CONFLICT (hash) DO NOTHING RETURNING handler_id` combined with
a same-snapshot `SELECT handler_id FROM handler WHERE hash = $2 LIMIT 1`;
a returned new id yields `(new, true)`, otherwise the pre-existing id yields
`(old, false)`. Returns the pair and the updated table. -/
def insert_handler (task : HandlerSpec) (hash : String) (owner_id : Int)
    (status : HandlerState) (table : HandlerTable) :
    (Int × Bool) × HandlerTable :=
  match table.rows.find? (fun row => row.hash == hash) with
  | some row => ((row.handler_id, false), table)
  | none =>
    ((table.next_id, true),
     { rows := table.rows ++
         [{ handler_id := table.next_id, owner_id, hash, code := task.code,
            status := status.toInt }],
       next_id := table.next_id + 1 })

/-- `TaskLoadResult` from `src/service.rs`. The `FailedSave` variant only
arises from database errors, which are outside this embedding. -/
inductive TaskLoadResult where
  | New (task_id : Int)
  | Exists (task_id : Int)
deriving Repr, BEq, DecidableEq

/-- `load_handler` from `src/service.rs`: hash the code (`hash_data`, the
external SHA-1, passed in as `hashFn`) and insert with owner 0, state
Enabled. -/
def load_handler (hashFn : String → String) (task : HandlerSpec)
    (table : HandlerTable) : TaskLoadResult × HandlerTable :=
  let hash := hashFn task.code
  let inserted := insert_handler task hash 0 HandlerState.Enabled table
  match inserted.1 with
  | (handler_id, true) => (TaskLoadResult.New handler_id, inserted.2)
  | (handler_id, false) => (TaskLoadResult.Exists handler_id, inserted.2)

/-- Repeated calls of `load_handler` with the same source, returning the
results in order along with the final table. -/
def load_handler_iter (hashFn : String → String) (task : HandlerSpec) :
    Nat → HandlerTable → List TaskLoadResult × HandlerTable
  | 0, table => ([], table)
  | n + 1, table =>
    let step := load_handler hashFn task table
    let rest := load_handler_iter hashFn task n step.2
    (step.1 :: rest.1, rest.2)

/-- Number of handler rows whose hash column equals `hash`. -/
def countHash (table : HandlerTable) (hash : String) : Nat :=
  (table.rows.filter (fun row => row.hash == hash)).length

/-! ### `src/event_extraction/crossref.rs` -/

/-- `MetadataQueueEntry` from `src/db/metadata.rs`. The Rust `json : String`
column is embedded, as elsewhere, by its parsed value: `extract_events`
receives the parse result separately as `maybe_json`. -/
structure MetadataQueueEntry where
  source_id : Int
  subject_id_type : Int
  subject_id_value : String
  assertion_id : Int
deriving Repr, BEq, DecidableEq

/-- `MetadataQueueEntry::subject_id`:
`Identifier::from_id_string_pair(subject_id_value, subject_id_type)`. -/
def MetadataQueueEntry.subject_id (entry : MetadataQueueEntry) : Identifier :=
  Identifier.fromIdStringPair entry.subject_id_value entry.subject_id_type

/-- `lifecycle` from `src/event_extraction/crossref.rs`. -/
def lifecycle (assertion : MetadataQueueEntry) : List Event :=
  [{ event_id := -1,
     analyzer := EventAnalyzerId.Lifecycle,
     subject_id := some assertion.subject_id,
     object_id := none,
     source := MetadataSourceId.from_int_value assertion.source_id,
     assertion_id := assertion.assertion_id,
     json := Json.obj [("type", Json.str "indexed")] }]

/-- `orcid` from `src/event_extraction/crossref.rs`: one Contribution/author
event per author entry with a string ORCID field. -/
def orcid (json : Json) (assertion : MetadataQueueEntry) : List Event :=
  match json.get? "author" with
  | some (Json.arr authors) =>
    authors.filterMap (fun author =>
      match (author.get? "ORCID").bind Json.asStr? with
      | some orcidStr =>
        some { event_id := -1,
               analyzer := EventAnalyzerId.Contribution,
               subject_id := some assertion.subject_id,
               object_id := some (Identifier.parse orcidStr),
               source := MetadataSourceId.from_int_value assertion.source_id,
               assertion_id := assertion.assertion_id,
               json := Json.obj [("type", Json.str "author")] }
      | none => none)
  | _ => []

/-- `isbn` from `src/event_extraction/crossref.rs`: one Identifier/has-isbn
event per `isbn-type` entry with string type and value fields. -/
def isbn (json : Json) (assertion : MetadataQueueEntry) : List Event :=
  match json.get? "isbn-type" with
  | some (Json.arr isbn_types) =>
    isbn_types.filterMap (fun entry =>
      match (entry.get? "type").bind Json.asStr? with
      | some isbn_type =>
        match (entry.get? "value").bind Json.asStr? with
        | some isbnStr =>
          some { event_id := -1,
                 analyzer := EventAnalyzerId.Identifier,
                 subject_id := some assertion.subject_id,
                 object_id := some (Identifier.parse isbnStr),
                 source := MetadataSourceId.from_int_value assertion.source_id,
                 assertion_id := assertion.assertion_id,
                 json := Json.obj [("type", Json.str "has-isbn"),
                                   ("isbn-type", Json.str isbn_type)] }
        | none => none
      | none => none)
  | _ => []

/-- The Reference event `references` pushes for one linked reference DOI. -/
def referenceEvent (assertion : MetadataQueueEntry) (doi : String) : Event :=
  { event_id := -1,
    analyzer := EventAnalyzerId.Reference,
    subject_id := some assertion.subject_id,
    object_id := some (Identifier.parse doi),
    source := MetadataSourceId.from_int_value assertion.source_id,
    assertion_id := assertion.assertion_id,
    json := Json.obj [("type", Json.str "references")] }

/-- `references` from `src/event_extraction/crossref.rs`: one
Reference/references event per reference entry with a string DOI field;
references without a DOI are skipped. -/
def references (json : Json) (assertion : MetadataQueueEntry) : List Event :=
  match json.get? "reference" with
  | some (Json.arr refs) =>
    refs.filterMap (fun reference =>
      ((reference.get? "DOI").bind Json.asStr?).map (referenceEvent assertion))
  | _ => []

/-- The string DOIs of the linked references of a parsed Crossref work body:
the entries of its `reference` array that carry a string `DOI` field. -/
def referenceDois (json : Json) : List String :=
  match json.get? "reference" with
  | some (Json.arr refs) =>
    refs.filterMap (fun reference => (reference.get? "DOI").bind Json.asStr?)
  | _ => []

/-- `extract_events` from `src/event_extraction/crossref.rs`. The `results`
vector is threaded through `lifecycle`, `orcid`, `isbn`, `references` in that
order, which is concatenation. -/
def extract_events (assertion : MetadataQueueEntry) (maybe_json : Option Json) :
    List Event :=
  if assertion.source_id = MetadataSourceId.Crossref.toInt then
    match maybe_json with
    | some json =>
      lifecycle assertion ++ orcid json assertion ++ isbn json assertion
        ++ references json assertion
    | none => []
  else []

/-! ## Theorems -/

/-! ### C2 — harvester checkpoint -/

lemma le_foldl_max (l : List Int) (a : Int) :
    a ≤ l.foldl (fun latest_date indexed => max indexed latest_date) a := by
  induction l generalizing a with
  | nil => exact le_refl a
  | cons d rest ih => exact le_trans (le_max_right d a) (ih (max d a))

/-- C2 counterexample: a run of `poll_newly_indexed_data` that sees zero new
items does not leave the `crossref-not-before` checkpoint unchanged — with
prior checkpoint 7200 it writes 3600, moving the checkpoint backwards. -/
theorem c2_counterexample :
    poll_newly_indexed_data (some 7200) 0 [] = 3600 ∧
    ¬ poll_newly_indexed_data (some 7200) 0 [] = 7200 ∧
    poll_newly_indexed_data (some 7200) 0 [] < 7200 :=
  ⟨rfl, by decide, by decide⟩

/-- C2 (amended): a run of `poll_newly_indexed_data` that sees zero new items
sets the `crossref-not-before` checkpoint to its previous value minus one
hour (the jitter-adjusted `after` date), and no run ever sets it lower than
that. -/
theorem c2_checkpoint_lower_bound (cp now : Int) (itemDates : List Int) :
    poll_newly_indexed_data (some cp) now [] = cp - 3600 ∧
    cp - 3600 ≤ poll_newly_indexed_data (some cp) now itemDates := by
  refine ⟨rfl, ?_⟩
  unfold poll_newly_indexed_data harvest_recently_indexed
  exact le_foldl_max itemDates _

/-! ### C3 — bulk filter scan stores reason Primary, not Secondary -/

/-- C3: the `MetadataAssertionReason` enum has `Primary` as its only variant,
and every row the bulk filter scan's per-item step adds through
`assert_metadata` carries reason `Primary` (discriminant 1) — the
`Secondary` reason the call site in `harvest_secondary_with_filter` names
cannot be stored. -/
theorem c3_bulk_filter_stores_primary (subject_entity_id : Int)
    (json hash : String) (table : List MetadataAssertionRow) :
    (∀ r : MetadataAssertionReason, r = MetadataAssertionReason.Primary) ∧
    (harvest_secondary_item subject_entity_id json hash table = table ∨
      harvest_secondary_item subject_entity_id json hash table
        = table ++ [{ json, source_id := MetadataSourceId.Crossref.toInt,
                      subject_entity_id, hash,
                      reason := MetadataAssertionReason.Primary.toInt }]) := by
  refine ⟨fun r => by cases r; rfl, ?_⟩
  unfold harvest_secondary_item assert_metadata insert_metadata_assertion
  split
  · exact Or.inl rfl
  · exact Or.inr rfl

/-! ### C5 — handler return contract -/

/-- C5: the return contract fails for a completed invocation whose returned
value's JSON stringification throws (a circular structure, a BigInt):
`v8::json::stringify` returns `None` and the `.unwrap()` at `run.rs:45-47`
panics, so no RunResult at all is recorded for that `(handler_id, event_id)`
instead of the claimed single error result — contradicting the source's own
comment at the site ("If there's no return statement, or JSON serialization
fails, 'undefined' is returned … Handle as a special case") and the spec's
handler-error taxonomy (recorded as a result with error set, never fatal).
The remaining conjuncts evaluate the return shapes the code does handle:
an array yields one output row per element, `undefined` and a non-array
JSON value yield exactly one error row. -/
theorem c5_stringify_throws_records_nothing :
    report_result_output { handler_id := 1234, code := "f returning a circular structure" }
        4321 [] StringifyOutcome.throws = none ∧
    report_result_output { handler_id := 1234, code := "f returning a circular structure" }
        4321 [] StringifyOutcome.undef
      = some [errResult 1234 4321 msgNoReturn] ∧
    report_result_output { handler_id := 1234, code := "f returning a circular structure" }
        4321 [] (StringifyOutcome.json (Json.arr [Json.obj [("r", Json.str "one")],
                                                  Json.obj [("r", Json.str "two")]]))
      = some [okResult 1234 4321 (Json.obj [("r", Json.str "one")]),
              okResult 1234 4321 (Json.obj [("r", Json.str "two")])] ∧
    report_result_output { handler_id := 1234, code := "f returning a circular structure" }
        4321 [] (StringifyOutcome.json (Json.num 7))
      = some [errResult 1234 4321 msgNotArray] :=
  ⟨rfl, rfl, rfl, rfl⟩

/-! ### C1 — hydration/ingest round trip -/

/-- A stored event holding one non-reserved JSON field, `"hello"`. -/
def c1Event : Event :=
  { event_id := 5, analyzer := EventAnalyzerId.Test,
    source := MetadataSourceId.Test, subject_id := none, object_id := none,
    assertion_id := 7, json := Json.obj [("hello", Json.str "world")] }

/-- C1: serializing `c1Event` via `Event::to_json_value` and parsing the
result via `Event::from_json_value` DROPS the non-reserved field `"hello"`
from the stored JSON and KEEPS the reserved fields `"analyzer"` and
`"source"` in it — the opposite of the claimed stripping. The normalization
loop in `from_json_value` retains a field exactly when `is_hydrated_field`
holds of it. -/
theorem c1_round_trip_drops_nonreserved :
    ∃ e : Event,
      Event.from_json_value (Event.to_json_value defaultOps c1Event) = some e ∧
      e.json.get? "hello" = none ∧
      e.json.get? "analyzer" = some (Json.str "test") ∧
      e.json.get? "source" = some (Json.str "test") ∧
      e.analyzer = EventAnalyzerId.Test ∧ e.source = MetadataSourceId.Test :=
  ⟨{ event_id := -1, analyzer := EventAnalyzerId.Test,
     source := MetadataSourceId.Test, subject_id := none, object_id := none,
     assertion_id := -1,
     json := Json.obj [("analyzer", Json.str "test"),
                       ("source", Json.str "test")] },
   rfl, rfl, rfl, rfl, rfl, rfl⟩

/-! ### C10 — implicit ingest precondition -/

/-- The per-item body of the loop in `load_events_from_disk`
(`src/service.rs`): items are inserted exactly when `Event::from_json_value`
produces an event. -/
def load_events_from_disk_inserted (items : List (Option Json)) : List Event :=
  items.filterMap Event.from_json_value

/-- C10: `Event::from_json_value` returns `none` on unparseable input, on
non-object JSON, and when the `analyzer` or `source` key is missing (so
`load_events_from_disk` inserts no event for such input); with both keys
present but non-string the event is produced with the Unknown
analyzer/source, and a missing `event_id` defaults to `-1`. -/
theorem c10_ingest_precondition :
    (Event.from_json_value none = none) ∧
    (∀ j : Json, j.isObj = false → Event.from_json_value (some j) = none) ∧
    (∀ fields, objGet fields "analyzer" = none →
      Event.from_json_value (some (Json.obj fields)) = none) ∧
    (∀ fields, objGet fields "source" = none →
      Event.from_json_value (some (Json.obj fields)) = none) ∧
    (∀ fields a s, objGet fields "analyzer" = some a → a.asStr? = none →
      objGet fields "source" = some s → s.asStr? = none →
      objGet fields "event_id" = none →
      ∃ e : Event, Event.from_json_value (some (Json.obj fields)) = some e ∧
        e.analyzer = EventAnalyzerId.Unknown ∧
        e.source = MetadataSourceId.Unknown ∧ e.event_id = -1) ∧
    (∀ item : Option Json, Event.from_json_value item = none →
      load_events_from_disk_inserted [item] = []) := by
  refine ⟨rfl, ?_, ?_, ?_, ?_, ?_⟩
  · intro j h
    cases j <;> simp_all [Json.isObj, Event.from_json_value]
  · intro fields h
    simp [Event.from_json_value, h]
  · intro fields h
    simp [Event.from_json_value, h]
  · intro fields a s ha hastr hs hsstr hid
    simp only [Event.from_json_value, ha, hs, hastr, hsstr, hid,
      Option.getD_none]
    exact ⟨_, rfl, rfl, rfl, rfl⟩
  · intro item h
    simp [load_events_from_disk_inserted, h]

/-- C10 witness: an object missing `source` yields no event; an object with
non-string `analyzer` and `source` values and no `event_id` yields an event
with the Unknown variants and event id -1. -/
theorem c10_witness :
    Event.from_json_value (some (Json.obj [("analyzer", Json.num 1)])) = none ∧
    (∃ e : Event,
      Event.from_json_value
        (some (Json.obj [("analyzer", Json.num 1), ("source", Json.num 2)]))
        = some e ∧
      e.analyzer = EventAnalyzerId.Unknown ∧
      e.source = MetadataSourceId.Unknown ∧ e.event_id = -1) :=
  ⟨c10_ingest_precondition.2.2.2.1 [("analyzer", Json.num 1)] rfl,
   c10_ingest_precondition.2.2.2.2.1
     [("analyzer", Json.num 1), ("source", Json.num 2)]
     (Json.num 1) (Json.num 2) rfl rfl rfl rfl rfl⟩

/-! ### C7 — one Reference event per linked reference DOI -/

lemma analyzer_of_mem_orcid {json : Json} {assertion : MetadataQueueEntry}
    {e : Event} (he : e ∈ orcid json assertion) :
    e.analyzer = EventAnalyzerId.Contribution := by
  unfold orcid at he
  split at he
  · rw [List.mem_filterMap] at he
    obtain ⟨author, -, hsome⟩ := he
    split at hsome
    · cases hsome; rfl
    · exact Option.noConfusion hsome
  · exact absurd he (List.not_mem_nil e)

lemma analyzer_of_mem_isbn {json : Json} {assertion : MetadataQueueEntry}
    {e : Event} (he : e ∈ isbn json assertion) :
    e.analyzer = EventAnalyzerId.Identifier := by
  unfold isbn at he
  split at he
  · rw [List.mem_filterMap] at he
    obtain ⟨entry, -, hsome⟩ := he
    split at hsome
    · split at hsome
      · cases hsome; rfl
      · exact Option.noConfusion hsome
    · exact Option.noConfusion hsome
  · exact absurd he (List.not_mem_nil e)

lemma analyzer_of_mem_references {json : Json} {assertion : MetadataQueueEntry}
    {e : Event} (he : e ∈ references json assertion) :
    e.analyzer = EventAnalyzerId.Reference := by
  unfold references at he
  split at he
  · rw [List.mem_filterMap] at he
    obtain ⟨reference, -, hsome⟩ := he
    cases hdoi : (reference.get? "DOI").bind Json.asStr? with
    | none => rw [hdoi] at hsome; exact Option.noConfusion hsome
    | some doi =>
      rw [hdoi] at hsome
      cases hsome; rfl
  · exact absurd he (List.not_mem_nil e)

lemma references_eq_map (json : Json) (assertion : MetadataQueueEntry) :
    references json assertion
      = (referenceDois json).map (referenceEvent assertion) := by
  unfold references referenceDois
  cases hj : json.get? "reference" with
  | none => rfl
  | some val =>
    cases val with
    | arr refs => exact (List.map_filterMap _ _ _).symm
    | null => rfl
    | bool b => rfl
    | num n => rfl
    | str s => rfl
    | obj fields => rfl

/-- C7: for a Crossref assertion with a parsed JSON body, the Reference
events among `extract_events` are exactly one per entry of the body's
`reference` array carrying a string `DOI` field — subject the assertion's
subject, object the parsed DOI identifier — and nothing else (entries
without a DOI yield no Reference event). -/
theorem c7_reference_events (assertion : MetadataQueueEntry) (json : Json)
    (h : assertion.source_id = MetadataSourceId.Crossref.toInt) :
    (extract_events assertion (some json)).filter
        (fun e => e.analyzer == EventAnalyzerId.Reference)
      = (referenceDois json).map (referenceEvent assertion) := by
  unfold extract_events
  rw [if_pos h, List.filter_append, List.filter_append, List.filter_append]
  have hlc : (lifecycle assertion).filter
      (fun e => e.analyzer == EventAnalyzerId.Reference) = [] := rfl
  have horc : (orcid json assertion).filter
      (fun e => e.analyzer == EventAnalyzerId.Reference) = [] := by
    rw [List.filter_eq_nil_iff]
    intro e he
    rw [analyzer_of_mem_orcid he]
    decide
  have hisbn : (isbn json assertion).filter
      (fun e => e.analyzer == EventAnalyzerId.Reference) = [] := by
    rw [List.filter_eq_nil_iff]
    intro e he
    rw [analyzer_of_mem_isbn he]
    decide
  have href : (references json assertion).filter
      (fun e => e.analyzer == EventAnalyzerId.Reference)
      = references json assertion := by
    rw [List.filter_eq_self]
    intro e he
    rw [analyzer_of_mem_references he]
    decide
  rw [hlc, horc, hisbn, href, references_eq_map]
  rfl

/-- A Crossref assertion and a body with one linked and one unlinked
reference, for the C7 witness. -/
def c7Assertion : MetadataQueueEntry :=
  { source_id := 2, subject_id_type := 1,
    subject_id_value := "10.5555/12345678", assertion_id := 2 }

def c7Json : Json :=
  Json.obj [("reference",
    Json.arr [Json.obj [("DOI", Json.str "10.5555/54321")],
              Json.obj [("unstructured", Json.str "not linked")]])]

/-- C7 witness: on a body with one linked and one unlinked reference, exactly
one Reference event is produced, for the linked DOI. -/
theorem c7_witness :
    (extract_events c7Assertion (some c7Json)).filter
        (fun e => e.analyzer == EventAnalyzerId.Reference)
      = (referenceDois c7Json).map (referenceEvent c7Assertion) ∧
    referenceDois c7Json = ["10.5555/54321"] :=
  ⟨c7_reference_events c7Assertion c7Json rfl, rfl⟩

/-! ### C9 — handler upload idempotence -/

lemma countHash_zero_find {table : HandlerTable} {hash : String}
    (h : countHash table hash = 0) :
    table.rows.find? (fun row => row.hash == hash) = none := by
  rw [List.find?_eq_none]
  intro row hrow hbeq
  have hmem : row ∈ table.rows.filter (fun row => row.hash == hash) :=
    List.mem_filter.mpr ⟨hrow, hbeq⟩
  unfold countHash at h
  rw [List.length_eq_zero] at h
  rw [h] at hmem
  exact absurd hmem (List.not_mem_nil row)

lemma load_handler_exists_of_find (hashFn : String → String)
    (task : HandlerSpec) (table1 : HandlerTable) (row : HandlerRow)
    (hfind : table1.rows.find? (fun r => r.hash == hashFn task.code) = some row) :
    load_handler hashFn task table1
      = (TaskLoadResult.Exists row.handler_id, table1) := by
  simp [load_handler, insert_handler, hfind]

lemma load_handler_iter_stable {hashFn : String → String} {task : HandlerSpec}
    {table1 : HandlerTable} {id : Int}
    (hstep : load_handler hashFn task table1
      = (TaskLoadResult.Exists id, table1)) :
    ∀ n, load_handler_iter hashFn task n table1
      = (List.replicate n (TaskLoadResult.Exists id), table1) := by
  intro n
  induction n with
  | zero => rfl
  | succ k ih => simp [load_handler_iter, hstep, ih, List.replicate_succ]

/-- C9: on a table with no row for the source's content hash, `load_handler`
reports New with a fresh id, leaves exactly one row with that hash, and any
number of repeated calls each report Exists with the same id and leave the
table unchanged. -/
theorem c9_load_handler_idempotent (hashFn : String → String)
    (task : HandlerSpec) (table : HandlerTable) (n : Nat)
    (h : countHash table (hashFn task.code) = 0) :
    ∃ (id : Int) (table1 : HandlerTable),
      load_handler hashFn task table = (TaskLoadResult.New id, table1) ∧
      countHash table1 (hashFn task.code) = 1 ∧
      load_handler_iter hashFn task n table1
        = (List.replicate n (TaskLoadResult.Exists id), table1) := by
  have hfind := countHash_zero_find h
  refine ⟨table.next_id,
    { rows := table.rows ++
        [{ handler_id := table.next_id, owner_id := 0,
           hash := hashFn task.code, code := task.code,
           status := HandlerState.Enabled.toInt }],
      next_id := table.next_id + 1 }, ?_, ?_, ?_⟩
  · simp [load_handler, insert_handler, hfind]
  · unfold countHash at h ⊢
    rw [List.length_eq_zero] at h
    simp [List.filter_append, h]
  · refine load_handler_iter_stable ?_ n
    have hfind1 :
        List.find? (fun r : HandlerRow => r.hash == hashFn task.code)
          (table.rows ++
            [({ handler_id := table.next_id, owner_id := 0,
                hash := hashFn task.code, code := task.code,
                status := HandlerState.Enabled.toInt } : HandlerRow)])
          = some { handler_id := table.next_id, owner_id := 0,
                   hash := hashFn task.code, code := task.code,
                   status := HandlerState.Enabled.toInt } := by
      rw [List.find?_append, hfind]
      simp [List.find?]
    exact load_handler_exists_of_find hashFn task
      { rows := table.rows ++
          [{ handler_id := table.next_id, owner_id := 0,
             hash := hashFn task.code, code := task.code,
             status := HandlerState.Enabled.toInt }],
        next_id := table.next_id + 1 }
      { handler_id := table.next_id, owner_id := 0,
        hash := hashFn task.code, code := task.code,
        status := HandlerState.Enabled.toInt }
      hfind1

/-- C9 witness: loading a handler into an empty table and repeating twice. -/
theorem c9_witness :
    ∃ (id : Int) (table1 : HandlerTable),
      load_handler (fun s => s) { handler_id := 0, code := "function f" }
          { rows := [], next_id := 1 }
        = (TaskLoadResult.New id, table1) ∧
      countHash table1 ((fun s : String => s) "function f") = 1 ∧
      load_handler_iter (fun s => s) { handler_id := 0, code := "function f" }
          2 table1
        = (List.replicate 2 (TaskLoadResult.Exists id), table1) :=
  c9_load_handler_idempotent (fun s => s) { handler_id := 0, code := "function f" }
    { rows := [], next_id := 1 } 2 rfl

/-! ### Membership structure of `run_all` results (shared by C4, C6, C8) -/

/-- A result freshly appended while processing handler `hid` against event id
`eid`: it carries those ids and has exactly one of `output` and `error` set. -/
def freshResult (hid eid : Int) (r : RunResult) : Prop :=
  r.handler_id = hid ∧ r.event_id = eid ∧
    ((r.output.isSome ∧ r.error = none) ∨ (r.output = none ∧ r.error.isSome))

lemma freshResult_err (hid eid : Int) (m : String) :
    freshResult hid eid (errResult hid eid m) :=
  ⟨rfl, rfl, Or.inr ⟨rfl, rfl⟩⟩

lemma freshResult_ok (hid eid : Int) (v : Json) :
    freshResult hid eid (okResult hid eid v) :=
  ⟨rfl, rfl, Or.inl ⟨rfl, rfl⟩⟩

lemma mem_report_error {r : RunResult} {hid eid : Int}
    {results : List RunResult} {m : String}
    (h : r ∈ report_error hid eid results m) :
    r ∈ results ∨ freshResult hid eid r := by
  rw [report_error, List.mem_append, List.mem_singleton] at h
  cases h with
  | inl h => exact Or.inl h
  | inr h => exact Or.inr (h ▸ freshResult_err hid eid m)

lemma mem_report_result_output_json {r : RunResult} {spec : HandlerSpec}
    {eid : Int} {results : List RunResult} {v : Option Json}
    (h : r ∈ report_result_output_json spec eid results v) :
    r ∈ results ∨ freshResult spec.handler_id eid r := by
  match v with
  | none => exact mem_report_error h
  | some (Json.arr items) =>
    rw [report_result_output_json, List.mem_append] at h
    cases h with
    | inl h => exact Or.inl h
    | inr h =>
      rw [List.mem_map] at h
      obtain ⟨j, -, hj⟩ := h
      exact Or.inr (hj ▸ freshResult_ok spec.handler_id eid j)
  | some Json.null => exact mem_report_error h
  | some (Json.bool b) => exact mem_report_error h
  | some (Json.num n) => exact mem_report_error h
  | some (Json.str s) => exact mem_report_error h
  | some (Json.obj fields) => exact mem_report_error h

lemma mem_load_script {r : RunResult} {spec : HandlerSpec}
    {results : List RunResult} {b : HandlerBehavior}
    (h : r ∈ (load_script spec results b).1) :
    r ∈ results ∨ freshResult spec.handler_id (-1) r := by
  unfold load_script at h
  cases hl : b.load <;> rw [hl] at h
  case ok => exact Or.inl h
  all_goals exact mem_report_error h

lemma mem_get_f_function {r : RunResult} {spec : HandlerSpec}
    {results : List RunResult} {b : HandlerBehavior}
    (h : r ∈ (get_f_function spec results b).1) :
    r ∈ results ∨ freshResult spec.handler_id (-1) r := by
  unfold get_f_function at h
  cases hf : b.fStatus <;> rw [hf] at h
  case isFunction => exact Or.inl h
  all_goals exact mem_report_error h

lemma mem_run_event {r : RunResult} {spec : HandlerSpec} {ev : Event}
    {outcome : CallOutcome} {results : List RunResult}
    (h : r ∈ (run_event spec ev outcome results).1) :
    r ∈ results ∨ freshResult spec.handler_id ev.event_id r := by
  unfold run_event at h
  cases outcome with
  | ret v => exact mem_report_result_output_json h
  | failExn m => exact mem_report_error h
  | failNoExn => exact mem_report_error h
  | timeoutTerminated => exact mem_report_error h

lemma mem_run_events {r : RunResult} {spec : HandlerSpec}
    {b : HandlerBehavior} {hydrated : List Event} {i : Nat}
    {results : List RunResult} {terms : Nat}
    (h : r ∈ (run_events spec b hydrated i (results, terms)).1) :
    r ∈ results ∨
      ∃ e ∈ hydrated, freshResult spec.handler_id e.event_id r := by
  induction hydrated generalizing i results terms with
  | nil => exact Or.inl h
  | cons ev rest ih =>
    rw [run_events] at h
    cases ih h with
    | inl h1 =>
      cases mem_run_event h1 with
      | inl h2 => exact Or.inl h2
      | inr h2 => exact Or.inr ⟨ev, List.mem_cons_self ev rest, h2⟩
    | inr h1 =>
      obtain ⟨e, he, hf⟩ := h1
      exact Or.inr ⟨e, List.mem_cons_of_mem ev he, hf⟩

lemma mem_report_terminated {r : RunResult} {hid : Int} {count : Nat}
    {results : List RunResult}
    (h : r ∈ report_terminated hid count results) :
    r ∈ results ∨ freshResult hid (-1) r := by
  rw [report_terminated, List.mem_append] at h
  cases h with
  | inl h => exact Or.inl h
  | inr h =>
    rw [List.mem_replicate] at h
    exact Or.inr (h.2 ▸ freshResult_err hid (-1) msgTooLong)

lemma mem_run_handler {r : RunResult} {b : HandlerBehavior}
    {spec : HandlerSpec} {hydrated : List Event} {results : List RunResult}
    (h : r ∈ run_handler b spec hydrated results) :
    r ∈ results ∨ freshResult spec.handler_id (-1) r ∨
      ∃ e ∈ hydrated, freshResult spec.handler_id e.event_id r := by
  unfold run_handler at h
  cases mem_report_terminated h with
  | inr h1 => exact Or.inr (Or.inl h1)
  | inl h1 =>
    by_cases hok : (load_script spec results b).2.1
    · rw [if_pos hok] at h1
      by_cases hfok : (get_f_function spec (load_script spec results b).1 b).2
      · rw [if_pos hfok] at h1
        cases mem_run_events h1 with
        | inr h2 => exact Or.inr (Or.inr h2)
        | inl h2 =>
          cases mem_get_f_function h2 with
          | inr h3 => exact Or.inr (Or.inl h3)
          | inl h3 =>
            cases mem_load_script h3 with
            | inl h4 => exact Or.inl h4
            | inr h4 => exact Or.inr (Or.inl h4)
      · rw [if_neg hfok] at h1
        cases mem_get_f_function h1 with
        | inr h3 => exact Or.inr (Or.inl h3)
        | inl h3 =>
          cases mem_load_script h3 with
          | inl h4 => exact Or.inl h4
          | inr h4 => exact Or.inr (Or.inl h4)
    · rw [if_neg hok] at h1
      cases mem_load_script h1 with
      | inl h4 => exact Or.inl h4
      | inr h4 => exact Or.inr (Or.inl h4)

lemma mem_run_all_foldl {r : RunResult} {behave : HandlerSpec → HandlerBehavior}
    {hydrated : List Event} {handlers : List HandlerSpec}
    {acc : List RunResult}
    (h : r ∈ handlers.foldl
      (fun results spec => run_handler (behave spec) spec hydrated results) acc) :
    r ∈ acc ∨ ∃ spec ∈ handlers,
      freshResult spec.handler_id (-1) r ∨
        ∃ e ∈ hydrated, freshResult spec.handler_id e.event_id r := by
  induction handlers generalizing acc with
  | nil => exact Or.inl h
  | cons spec rest ih =>
    rw [List.foldl_cons] at h
    cases ih h with
    | inl h1 =>
      cases mem_run_handler h1 with
      | inl h2 => exact Or.inl h2
      | inr h2 => exact Or.inr ⟨spec, List.mem_cons_self spec rest, h2⟩
    | inr h1 =>
      obtain ⟨s, hs, hf⟩ := h1
      exact Or.inr ⟨s, List.mem_cons_of_mem spec hs, hf⟩

lemma mem_run_all {r : RunResult} {behave : HandlerSpec → HandlerBehavior}
    {ops : IdentifierOps} {handlers : List HandlerSpec} {events : List Event}
    (h : r ∈ run_all behave ops handlers events) :
    ∃ spec ∈ handlers,
      freshResult spec.handler_id (-1) r ∨
        ∃ e ∈ events.filter (fun e => (e.to_json_value ops).isSome),
          freshResult spec.handler_id e.event_id r := by
  unfold run_all at h
  cases mem_run_all_foldl h with
  | inl h1 => exact absurd h1 (List.not_mem_nil r)
  | inr h1 => exact h1

/-! ### C4 — result attribution for a singleton handler list -/

/-- C4: every result of `run_all` on a singleton handler list carries that
handler's id, and an event id that is `-1` or the id of one of the input
events. -/
theorem c4_run_all_singleton (behave : HandlerSpec → HandlerBehavior)
    (ops : IdentifierOps) (H : HandlerSpec) (events : List Event) :
    ∀ r ∈ run_all behave ops [H] events,
      r.handler_id = H.handler_id ∧
        (r.event_id = -1 ∨ ∃ e ∈ events, r.event_id = e.event_id) := by
  intro r hr
  obtain ⟨spec, hspec, hcase⟩ := mem_run_all hr
  rw [List.mem_singleton] at hspec
  subst hspec
  cases hcase with
  | inl h => exact ⟨h.1, Or.inl h.2.1⟩
  | inr h =>
    obtain ⟨e, he, hf⟩ := h
    rw [List.mem_filter] at he
    exact ⟨hf.1, Or.inr ⟨e, he.1, hf.2.1⟩⟩

/-- A behaviour whose load succeeds and whose calls return a one-element
array, for the C4 witness. -/
def c4Behave : HandlerSpec → HandlerBehavior := fun _ =>
  { load := LoadOutcome.ok, fStatus := FOutcome.isFunction,
    call := fun _ => CallOutcome.ret (some (Json.arr [Json.str "one"])) }

def c4Handler : HandlerSpec :=
  { handler_id := 7, code := "function f(args) return [args.x]" }

def c4Event : Event :=
  { event_id := 9, analyzer := EventAnalyzerId.Test,
    source := MetadataSourceId.Test, subject_id := none, object_id := none,
    assertion_id := -1, json := Json.obj [] }

/-- C4 witness: the single result of a successful run carries the handler's
id and the event's id. -/
theorem c4_witness :
    (okResult 7 9 (Json.str "one")).handler_id = c4Handler.handler_id ∧
    ((okResult 7 9 (Json.str "one")).event_id = -1 ∨
      ∃ e ∈ [c4Event], (okResult 7 9 (Json.str "one")).event_id = e.event_id) :=
  c4_run_all_singleton c4Behave defaultOps c4Handler [c4Event]
    (okResult 7 9 (Json.str "one"))
    (by
      have hc : run_all c4Behave defaultOps [c4Handler] [c4Event]
          = [okResult 7 9 (Json.str "one")] := rfl
      rw [hc]
      exact List.mem_singleton.mpr rfl)

/-! ### C8 — exactly one of output and error is set -/

/-- C8: every result of `run_all` has exactly one of its `output` and
`error` fields set. -/
theorem c8_output_xor_error (behave : HandlerSpec → HandlerBehavior)
    (ops : IdentifierOps) (handlers : List HandlerSpec) (events : List Event) :
    ∀ r ∈ run_all behave ops handlers events,
      (r.output.isSome ∧ r.error = none) ∨
        (r.output = none ∧ r.error.isSome) := by
  intro r hr
  obtain ⟨spec, -, hcase⟩ := mem_run_all hr
  cases hcase with
  | inl h => exact h.2.2
  | inr h =>
    obtain ⟨e, -, hf⟩ := h
    exact hf.2.2

/-- A behaviour that fails to compile, for the C8 witness. -/
def c8Behave : HandlerSpec → HandlerBehavior := fun _ =>
  { load := LoadOutcome.compileFail, fStatus := FOutcome.isFunction,
    call := fun _ => CallOutcome.failNoExn }

def c8Handler : HandlerSpec := { handler_id := 3, code := "not valid code" }

/-- C8 witness: the compile-failure error result has only `error` set. -/
theorem c8_witness :
    ((errResult 3 (-1) msgCompileFail).output.isSome ∧
        (errResult 3 (-1) msgCompileFail).error = none) ∨
      ((errResult 3 (-1) msgCompileFail).output = none ∧
        (errResult 3 (-1) msgCompileFail).error.isSome) :=
  c8_output_xor_error c8Behave defaultOps [c8Handler] []
    (errResult 3 (-1) msgCompileFail)
    (by
      have hc : run_all c8Behave defaultOps [c8Handler] []
          = [errResult 3 (-1) msgCompileFail] := rfl
      rw [hc]
      exact List.mem_singleton.mpr rfl)

/-! ### C6 — handler whose load phase exceeds the load timeout -/

/-- A behaviour whose load is terminated by the watchdog. -/
def c6Behave : HandlerSpec → HandlerBehavior := fun _ =>
  { load := LoadOutcome.timeoutTerminated, fStatus := FOutcome.isFunction,
    call := fun _ => CallOutcome.timeoutTerminated }

def c6Handler : HandlerSpec :=
  { handler_id := 1234, code := "let r = 0; while (true) r += 1" }

def c6Event : Event :=
  { event_id := 4321, analyzer := EventAnalyzerId.Test,
    source := MetadataSourceId.Test, subject_id := none, object_id := none,
    assertion_id := -1, json := Json.obj [] }

/-- C6 counterexample: a handler whose load is terminated by the watchdog
yields TWO error results, not exactly one — the load-failure report from
`load_script` and the timeout report from `report_terminated` — matching the
repository's own `slow_handler_load` test, which asserts both messages. -/
theorem c6_counterexample :
    run_all c6Behave defaultOps [c6Handler] [c6Event]
      = [errResult 1234 (-1) msgLoadNoExn, errResult 1234 (-1) msgTooLong] ∧
    ¬ ((run_all c6Behave defaultOps [c6Handler] [c6Event]).filter
          (fun r => r.error.isSome)).length = 1 := by
  refine ⟨rfl, ?_⟩
  have h2 : ((run_all c6Behave defaultOps [c6Handler] [c6Event]).filter
      (fun r => r.error.isSome)).length = 2 := rfl
  rw [h2]
  decide

/-- C6 (amended): for every handler whose load phase is terminated by the
watchdog, `run_all` on the singleton list produces exactly two error
results — one "Failed to load the function…" and one "…took too long…" —
both with event id `-1`, and zero per-event results. -/
theorem c6_load_timeout_two_errors (behave : HandlerSpec → HandlerBehavior)
    (ops : IdentifierOps) (H : HandlerSpec) (events : List Event)
    (h : (behave H).load = LoadOutcome.timeoutTerminated) :
    run_all behave ops [H] events
      = [errResult H.handler_id (-1) msgLoadNoExn,
         errResult H.handler_id (-1) msgTooLong] := by
  unfold run_all
  rw [List.foldl_cons, List.foldl_nil]
  unfold run_handler load_script
  rw [h]
  rfl

/-- C6 amended witness: the concrete load-terminated run yields exactly the
two error results. -/
theorem c6_amended_witness :
    run_all c6Behave defaultOps [c6Handler] [c6Event]
      = [errResult 1234 (-1) msgLoadNoExn, errResult 1234 (-1) msgTooLong] :=
  c6_load_timeout_two_errors c6Behave defaultOps c6Handler [c6Event] rfl

end Metabeak
